import Mathlib

set_option maxRecDepth 100000

/-
Verification of the heuristic corp-line reconstruction engine in
florida-renew-local/api/data.py.  The Python functions are shallowly
embedded as executable Lean definitions over List Char / List String;
regular-expression substitutions are translated as left-to-right scanners
over the original character list, mirroring the semantics of re.sub
(matches are found on the original string, scanning resumes after each
consumed match, lookaheads consume nothing).
-/

namespace FlaRenew

/-! ## Data model (the dict shapes produced by data.py) -/

/-- Address dict produced by parse_address: keys address1, city, state, zip,
with address2 and country present only when truthy. -/
structure Address where
  address1 : String
  address2 : Option String
  city : String
  state : String
  zip : String
  country : Option String
deriving DecidableEq

/-- Registered-agent dict: name may be None (clean_and_flip_agent_name can
return None), address may be None (format A keeps a failed address parse). -/
structure RegisteredAgent where
  name : Option String
  address : Option Address
deriving DecidableEq

/-- Officer dict assembled in the officer loop of parse_corp_line. -/
structure Officer where
  role : String
  name : Option String
  address : Option Address
deriving DecidableEq

/-- The record returned by parse_corp_line. -/
structure ParsedRecord where
  document_number : String
  entity_name : String
  entity_type_code : Option String
  principal_address : Option Address
  mailing_address : Option Address
  formation_date : Option String
  fei_ein : Option String
  annual_report_year : Option String
  report_dates : List String
  registered_agent : Option RegisteredAgent
  officers : List Officer
  raw_line : String
deriving DecidableEq

/-- Summary dict built by search_entities for each candidate row. -/
structure Summary where
  document_number : String
  entity_name : String
  entity_type_code : Option String
  principal_city : Option String
  principal_state : Option String
deriving DecidableEq

/-! ## Character helpers -/

/-- Python str.strip and regex whitespace class over ASCII:
space, tab, newline, carriage return, vertical tab, form feed. -/
def pySpace (c : Char) : Bool :=
  c == ' ' || c == '\t' || c == '\n' || c == '\r' || c == Char.ofNat 11 || c == Char.ofNat 12

/-- Python regex word character for the word-boundary assertion:
letters, digits and underscore (the inputs are ASCII). -/
def isWordChar (c : Char) : Bool :=
  c.isAlphanum || c == '_'

/-- A word boundary holds before a word character iff the previous character
(none at the start of the string) is not a word character. -/
def bdry : Option Char → Bool
  | none => true
  | some c => !isWordChar c

/-- A word boundary holds after a word character iff the next character
(none at the end of the string) is not a word character. -/
def bAfter : List Char → Bool
  | [] => true
  | c :: _ => !isWordChar c

/-- First n characters exist and are all decimal digits. -/
def digitsTake (n : Nat) (l : List Char) : Bool :=
  decide ((l.take n).length = n) && (l.take n).all Char.isDigit

/-- Python str.strip with no argument: drop ASCII whitespace on both ends. -/
def pyStripChars (l : List Char) : List Char :=
  ((l.dropWhile pySpace).reverse.dropWhile pySpace).reverse

/-- Python str.strip on a String value. -/
def pyStripStr (s : String) : String :=
  String.mk (pyStripChars s.data)

/-- Python str.upper on the ASCII inputs of this data set. -/
def upperChars (l : List Char) : List Char :=
  l.map Char.toUpper

/-- Python str.upper on a String value. -/
def upperStr (s : String) : String :=
  String.mk (upperChars s.data)

/-- Python str.strip with a comma argument: drop commas on both ends. -/
def stripCommaStr (s : String) : String :=
  String.mk (((s.data.dropWhile (· == ',')).reverse.dropWhile (· == ',')).reverse)

/-- Python " ".join over a list of strings. -/
def joinSp : List String → String
  | [] => ""
  | [t] => t
  | t :: ts => t ++ " " ++ joinSp ts

/-! ## Normalizer: the regex substitutions of normalize_ws

Each substitution is a scanner over the original character list carrying the
previous original character (for word boundaries).  A rule either matches at
the current position, emitting replacement text and consuming at least one
character, or the scanner copies one character and moves on.  The fuel is the
length of the list; since every step consumes at least one character the fuel
never runs out before the list is exhausted. -/

/-- One rule attempt: given the previous original character and the remaining
input, return (emitted output, new previous character, remaining input). -/
def SubRule : Type :=
  Option Char → List Char → Option (List Char × Option Char × List Char)

/-- Run one substitution rule left to right over the whole list. -/
def scanSub (f : SubRule) : Nat → Option Char → List Char → List Char
  | 0, _, l => l
  | _ + 1, _, [] => []
  | fuel + 1, prev, c :: rest =>
    match f prev (c :: rest) with
    | some (out, p2, r2) => out ++ scanSub f fuel p2 r2
    | none => c :: scanSub f fuel (some c) rest

/-- Apply one substitution rule to a character list. -/
def runSub (f : SubRule) (l : List Char) : List Char :=
  scanSub f l.length none l

/-- Restricted model of the named-entity table used by Python html.unescape:
the common ASCII entities that can occur in this data set (html5 has entries
both with and without the trailing semicolon).  Numeric character references
and the rarer named entities are left undecoded by this model. -/
def htmlEnts : List (List Char × List Char) :=
  [("amp;".data, "&".data), ("amp".data, "&".data),
   ("lt;".data, "<".data), ("lt".data, "<".data),
   ("gt;".data, ">".data), ("gt".data, ">".data),
   ("quot;".data, "\"".data), ("quot".data, "\"".data)]

/-- Exact lookup in the entity table. -/
def entLookup (g : List Char) : Option (List Char) :=
  match htmlEnts.find? (fun e => e.1 == g) with
  | some e => some e.2
  | none => none

/-- The prefix-fallback loop of html._replace_charref: try prefixes of the
matched group from the longest down to length 2. -/
def entPrefixLoop (g : List Char) : Nat → Option (List Char)
  | 0 => none
  | x + 1 =>
    if x + 1 < 2 then none
    else
      match entLookup (g.take (x + 1)) with
      | some rep => some (rep ++ g.drop (x + 1))
      | none => entPrefixLoop g x

/-- Resolve a matched charref group as html.unescape does for named entities. -/
def entResolve (g : List Char) : Option (List Char) :=
  match entLookup g with
  | some rep => some rep
  | none => entPrefixLoop g (g.length - 1)

/-- Characters allowed inside a named character reference by the charref
regex of html.unescape. -/
def entChar (c : Char) : Bool :=
  !(c == '\t' || c == '\n' || c == Char.ofNat 12 || c == ' ' || c == '<' ||
    c == '&' || c == '#' || c == ';')

/-- Substitution rule modelling html.unescape: an ampersand followed by up to
32 allowed characters and an optional semicolon is replaced by the resolved
entity; unresolved references are left as literal text. -/
def tryCharref : SubRule := fun _ l =>
  match l with
  | '&' :: rest =>
    let nm := (rest.takeWhile entChar).take 32
    if nm.isEmpty then none
    else
      let rest2 := rest.drop nm.length
      match rest2 with
      | ';' :: rest3 =>
        (match entResolve (nm ++ [';']) with
         | some rep => some (rep, some ';', rest3)
         | none => none)
      | _ =>
        (match entResolve nm with
         | some rep => some (rep, nm.getLast?, rest2)
         | none => none)
  | _ => none

/-- Rule for the pattern of a capital P glued to a digit: insert a space
after the P (word boundary before the P, lookahead at the digit). -/
def tryPdigit : SubRule := fun prev l =>
  match l with
  | 'P' :: rest =>
    if bdry prev && (match rest with | d :: _ => d.isDigit | [] => false)
    then some (['P', ' '], some 'P', rest) else none
  | _ => none

/-- Alternatives of the glued-period rule: FT, ST, N, S, E, W, each followed
by a word boundary. -/
def abbrevAfterDot (rest : List Char) : Bool :=
  (['F', 'T'].isPrefixOf rest && bAfter (rest.drop 2)) ||
  (['S', 'T'].isPrefixOf rest && bAfter (rest.drop 2)) ||
  (['N'].isPrefixOf rest && bAfter (rest.drop 1)) ||
  (['S'].isPrefixOf rest && bAfter (rest.drop 1)) ||
  (['E'].isPrefixOf rest && bAfter (rest.drop 1)) ||
  (['W'].isPrefixOf rest && bAfter (rest.drop 1))

/-- Rule for a period glued to a direction or FT or ST abbreviation: insert a
space after the period (the lookahead consumes nothing). -/
def tryDotAbbrev : SubRule := fun _ l =>
  match l with
  | '.' :: rest =>
    if abbrevAfterDot rest then some (['.', ' '], some '.', rest) else none
  | _ => none

/-- Rule for a single capital letter glued to an 8-digit date with word
boundaries on both sides: insert a space between them. -/
def tryFlagDate : SubRule := fun prev l =>
  match l with
  | c :: rest =>
    if bdry prev && c.isUpper && digitsTake 8 rest && bAfter (rest.drop 8)
    then some (c :: ' ' :: rest.take 8, (rest.take 8).getLast?, rest.drop 8)
    else none
  | [] => none

/-- Rule for an 8-digit date glued to FL and a 4-digit year: split before FL. -/
def tryDateFL : SubRule := fun prev l =>
  if bdry prev && digitsTake 8 l &&
     (['F', 'L'].isPrefixOf (l.drop 8)) && digitsTake 4 (l.drop 10) &&
     bAfter (l.drop 14)
  then some (l.take 8 ++ ' ' :: 'F' :: 'L' :: (l.drop 10).take 4,
             ((l.drop 10).take 4).getLast?, l.drop 14)
  else none

/-- Rule for US glued to a digit: insert a space after US. -/
def tryUSdigit : SubRule := fun prev l =>
  match l with
  | 'U' :: 'S' :: rest =>
    if bdry prev && (match rest with | d :: _ => d.isDigit | [] => false)
    then some (['U', 'S', ' '], some 'S', rest) else none
  | _ => none

/-- Rule for two capital letters glued to a 5-digit zip with word boundaries:
insert a space between them. -/
def tryStateZip : SubRule := fun prev l =>
  match l with
  | c1 :: c2 :: rest =>
    if bdry prev && c1.isUpper && c2.isUpper && digitsTake 5 rest &&
       bAfter (rest.drop 5)
    then some (c1 :: c2 :: ' ' :: rest.take 5, (rest.take 5).getLast?, rest.drop 5)
    else none
  | _ => none

/-- Rule for an 8-digit date glued to a 2-7 hyphenated EIN: split after the
date. -/
def tryDateEin : SubRule := fun prev l =>
  if bdry prev && digitsTake 10 l && (['-'].isPrefixOf (l.drop 10)) &&
     digitsTake 7 (l.drop 11) && bAfter (l.drop 18)
  then some (l.take 8 ++ ' ' :: ((l.drop 8).take 2 ++ '-' :: (l.drop 11).take 7),
             ((l.drop 11).take 7).getLast?, l.drop 18)
  else none

/-- Rule for an 8-digit date glued to a 9-digit FEI: split after the date. -/
def tryDateFei9 : SubRule := fun prev l =>
  if bdry prev && digitsTake 17 l && bAfter (l.drop 17)
  then some (l.take 8 ++ ' ' :: (l.drop 8).take 9,
             ((l.drop 8).take 9).getLast?, l.drop 17)
  else none

/-- Rule for an 8-digit date glued to a 4-digit year: split after the date. -/
def tryDateYear : SubRule := fun prev l =>
  if bdry prev && digitsTake 12 l && bAfter (l.drop 12)
  then some (l.take 8 ++ ' ' :: (l.drop 8).take 4,
             ((l.drop 8).take 4).getLast?, l.drop 12)
  else none

/-- Rule for an 8-digit date glued to a following capital letter: split after
the date; the letter is part of the match and is consumed. -/
def tryDateLetters : SubRule := fun prev l =>
  if bdry prev && digitsTake 8 l then
    match l.drop 8 with
    | c :: rest2 =>
      if c.isUpper then some (l.take 8 ++ [' ', c], some c, rest2) else none
    | [] => none
  else none

/-- Rule for a comma glued to a non-space character: insert a space after the
comma (the lookahead consumes nothing). -/
def tryCommaSp : SubRule := fun _ l =>
  match l with
  | ',' :: rest =>
    (match rest with
     | c :: _ => if pySpace c then none else some ([',', ' '], some ',', rest)
     | [] => none)
  | _ => none

/-- Collapse every run of whitespace to a single space (the final whitespace
substitution of normalize_ws); the flag records whether the previous emitted
character was a collapsed space. -/
def collapseGo : Bool → List Char → List Char
  | _, [] => []
  | prevSp, c :: rest =>
    if pySpace c then
      (if prevSp then collapseGo true rest else ' ' :: collapseGo true rest)
    else c :: collapseGo false rest

/-- The Normalizer normalize_ws of data.py: strip, decode entities, apply the
glued-token substitutions in source order, collapse whitespace and strip. -/
def normalize_ws (s : String) : String :=
  let l0 := pyStripChars s.data
  let l1 := runSub tryCharref l0
  let l2 := runSub tryPdigit l1
  let l3 := runSub tryDotAbbrev l2
  let l4 := runSub tryFlagDate l3
  let l5 := runSub tryDateFL l4
  let l6 := runSub tryUSdigit l5
  let l7 := runSub tryStateZip l6
  let l8 := runSub tryDateEin l7
  let l9 := runSub tryDateFei9 l8
  let l10 := runSub tryDateYear l9
  let l11 := runSub tryDateLetters l10
  let l12 := runSub tryCommaSp l11
  String.mk (pyStripChars (collapseGo false l12))

/-! ## Tokenizer -/

/-- Python str.split with a single-space separator. -/
def splitSpGo : List Char → List Char → List String
  | acc, [] => [String.mk acc.reverse]
  | acc, ' ' :: rest => String.mk acc.reverse :: splitSpGo [] rest
  | acc, c :: rest => splitSpGo (c :: acc) rest

/-- The tokenize of data.py: an empty input yields no tokens, otherwise the
normalized line is split on single spaces. -/
def tokenize (s : String) : List String :=
  if s.data.isEmpty then [] else splitSpGo [] (normalize_ws s).data

/-! ## Anchor classifiers (full-match token predicates from data.py) -/

/-- Zip token: exactly 5 digits, optionally a hyphen and 4 more digits. -/
def looks_like_zip (t : String) : Bool :=
  let l := t.data
  (decide (l.length = 5) && l.all Char.isDigit) ||
  (decide (l.length = 10) && (l.take 5).all Char.isDigit &&
   (l.getD 5 ' ' == '-') && (l.drop 6).all Char.isDigit)

/-- Date token: exactly 8 digits. -/
def looks_like_date (t : String) : Bool :=
  decide (t.data.length = 8) && t.data.all Char.isDigit

/-- EIN token: 2 digits, a hyphen, 7 digits. -/
def looks_like_ein (t : String) : Bool :=
  let l := t.data
  decide (l.length = 10) && (l.take 2).all Char.isDigit &&
  (l.getD 2 ' ' == '-') && (l.drop 3).all Char.isDigit

/-- FEI token: exactly 9 digits. -/
def looks_like_fei9 (t : String) : Bool :=
  decide (t.data.length = 9) && t.data.all Char.isDigit

/-- Year token: exactly 4 digits. -/
def looks_like_year (t : String) : Bool :=
  decide (t.data.length = 4) && t.data.all Char.isDigit

/-- Street-number token: 1 to 6 digits. -/
def looks_like_street_number (t : String) : Bool :=
  let l := t.data
  decide (1 ≤ l.length) && decide (l.length ≤ 6) && l.all Char.isDigit

/-- Compact registered-agent code: a capital C followed by 1 to 6 digits. -/
def isCcode (t : String) : Bool :=
  match t.data with
  | 'C' :: ds => decide (1 ≤ ds.length) && decide (ds.length ≤ 6) && ds.all Char.isDigit
  | _ => false

/-- A single capital letter (the skipped flag token in the filing-facts scan). -/
def isSingleUpper (t : String) : Bool :=
  match t.data with
  | [c] => c.isUpper
  | _ => false

/-- An FL prefix glued to a 4-digit year (the annual-report-year token). -/
def isFLyear (t : String) : Bool :=
  match t.data with
  | 'F' :: 'L' :: ds => decide (ds.length = 4) && ds.all Char.isDigit
  | _ => false

/-- Junk blob in agent names: 1 or 2 capital letters followed by 6 or more
digits, nothing else. -/
def isBlob (t : String) : Bool :=
  let ls := t.data.takeWhile Char.isUpper
  let ds := t.data.drop ls.length
  decide (1 ≤ ls.length) && decide (ls.length ≤ 2) &&
  decide (6 ≤ ds.length) && ds.all Char.isDigit

/-- A capital P glued to at least 3 capital letters (normalize_person_token
strips the P). -/
def isPglued (t : String) : Bool :=
  match t.data with
  | 'P' :: rest => decide (3 ≤ rest.length) && rest.all Char.isUpper
  | _ => false

/-! ## Fixed vocabularies (the configuration sets of data.py) -/

/-- The 51 US state and DC codes. -/
def usStates : List String :=
  ["AL", "AK", "AZ", "AR", "CA", "CO", "CT", "DE", "FL", "GA", "HI", "ID",
   "IL", "IN", "IA", "KS", "KY", "LA", "ME", "MD", "MA", "MI", "MN", "MS",
   "MO", "MT", "NE", "NV", "NH", "NJ", "NM", "NY", "NC", "ND", "OH", "OK",
   "OR", "PA", "RI", "SC", "SD", "TN", "TX", "UT", "VT", "VA", "WA", "WV",
   "WI", "WY", "DC"]

/-- The entity-type token vocabulary. -/
def typeTokens : List String :=
  ["IFLAL", "AFLAL", "IDOMNP", "IDOMN", "IDOMP", "IDOM", "DOMNP", "DOMP"]

/-- The officer role-code vocabulary. -/
def roleTokens : List String :=
  ["MGR", "AMBR", "MEMBER", "PRES", "VP", "VPP", "TREA", "SEC", "DIR",
   "CEO", "CFO", "COO", "MANAGER", "AUTHORIZED", "TRUSTEE", "CHAIR",
   "P", "S", "D"]

/-- Address-line-2 continuation keywords. -/
def addr2Keywords : List String :=
  ["SUITE", "STE", "UNIT", "APT", "#", "FLOOR", "FL", "BLDG", "BUILDING",
   "RM", "ROOM"]

/-- Street-suffix vocabulary. -/
def streetSuffix : List String :=
  ["AVE", "AVE.", "AVENUE", "BLVD", "BLVD.", "BOULEVARD", "RD", "RD.",
   "ROAD", "ST", "ST.", "STREET", "DR", "DR.", "DRIVE", "CT", "CT.",
   "COURT", "LN", "LN.", "LANE", "WAY", "HWY", "HWY.", "PKWY", "PKWY.",
   "TER", "TER.", "CIR", "CIR."]

/-- Business-suffix vocabulary used to suppress name flipping. -/
def businessWords : List String :=
  ["LLC", "INC", "INC.", "CORP", "CORPORATION", "COMPANY", "GROUP", "LAW"]

/-! ## Bounded forward scans (the for ... in range(start, stop) searches) -/

/-- First index k with start at most k, k below start plus fuel, satisfying p. -/
def scanGo (p : Nat → Bool) : Nat → Nat → Option Nat
  | _, 0 => none
  | k, fuel + 1 => if p k then some k else scanGo p (k + 1) fuel

/-- First index in the half-open range from start to stop satisfying p. -/
def scanFirst (p : Nat → Bool) (start stop : Nat) : Option Nat :=
  scanGo p start (stop - start)

/-- The find_state_zip of data.py: first j in the window where tokens j is a
state code and tokens j+1 matches the zip pattern. -/
def find_state_zip (tokens : List String) (start window : Nat) : Option Nat :=
  scanFirst
    (fun j => usStates.contains (tokens.getD j "") &&
              looks_like_zip (tokens.getD (j + 1) ""))
    start (min (tokens.length - 1) (start + window))

/-! ## Address extractor -/

/-- The split_addr keyword scan: first index i at least 1 where the uppercased
comma-stripped token is a continuation keyword, or the following token is
FLOOR or FL. -/
def splitAddrIdx (upper : List String) : Option Nat :=
  scanFirst
    (fun i => addr2Keywords.contains (upper.getD i "") ||
              (decide (i + 1 < upper.length) &&
               (["FLOOR", "FL"].contains (upper.getD (i + 1) ""))))
    1 upper.length

/-- The split_addr of data.py: split the street tokens into line 1 and an
optional line 2 at the first continuation keyword. -/
def split_addr (addrTokens : List String) : String × Option String :=
  if addrTokens.isEmpty then ("", none)
  else
    let upper := addrTokens.map (fun t => stripCommaStr (upperStr t))
    match splitAddrIdx upper with
    | none => (pyStripStr (joinSp addrTokens), none)
    | some i =>
      (pyStripStr (joinSp (addrTokens.take i)),
       some (pyStripStr (joinSp (addrTokens.drop i))))

/-- The is_city_token predicate of parse_address: not a continuation keyword,
not a street suffix, and containing no digit. -/
def is_city_token (t : String) : Bool :=
  let tu := stripCommaStr (upperStr t)
  !(addr2Keywords.contains tu) && !(streetSuffix.contains tu) &&
  !(t.data.any Char.isDigit)

/-- The backward city walk of parse_address, applied to the reversed prefix:
claim up to 3 tokens while each is city-like, stripping commas. -/
def cityTake : Nat → List String → List String
  | 0, _ => []
  | _, [] => []
  | n + 1, t :: rest =>
    if is_city_token t then stripCommaStr t :: cityTake n rest else []

/-- The parse_address of data.py: locate a state and zip anchor within a
window of 140 tokens, walk back up to three city tokens, split the remaining
prefix into address lines, and claim a trailing US or USA country token. -/
def parse_address (tokens : List String) (start : Nat) :
    Option Address × Nat :=
  match find_state_zip tokens start 140 with
  | none => (none, start)
  | some si =>
    let state := tokens.getD si ""
    let zipc := tokens.getD (si + 1) ""
    let pre := (tokens.drop start).take (si - start)
    let cityParts := cityTake 3 pre.reverse
    let city := pyStripStr (joinSp cityParts.reverse)
    let addrToks := pre.take (pre.length - cityParts.length)
    let sp := split_addr addrToks
    let a2 := match sp.2 with
              | none => none
              | some x => if x.data.isEmpty then none else some x
    let n1 := si + 2
    let hasCountry := decide (n1 < tokens.length) &&
                      (["US", "USA"].contains (tokens.getD n1 ""))
    (some { address1 := sp.1, address2 := a2, city := city, state := state,
            zip := zipc, country := if hasCountry then some "US" else none },
     if hasCountry then n1 + 1 else n1)

/-! ## Agent and officer names -/

/-- The normalize_person_token of data.py: strip a leading P glued to an
uppercase run of length at least 3. -/
def normalize_person_token (t : String) : String :=
  if isPglued t then String.mk (t.data.drop 1) else t

/-- The junk filter of clean_and_flip_agent_name: drop N and Y flags, dates,
years, EIN and FEI patterns, FL-year tokens and short letter-digit blobs,
normalizing each kept token. -/
def cleanParts : List String → List String
  | [] => []
  | t :: rest =>
    let tu := upperStr t
    if tu == "N" || tu == "Y" then cleanParts rest
    else if looks_like_date t || looks_like_year t || looks_like_ein t ||
            looks_like_fei9 t then cleanParts rest
    else if isFLyear tu then cleanParts rest
    else if isBlob tu then cleanParts rest
    else normalize_person_token t :: cleanParts rest

/-- The clean_and_flip_agent_name of data.py: clean the tokens, keep order
when a business word is present, otherwise flip LAST FIRST REST to
FIRST REST LAST. -/
def clean_and_flip_agent_name (parts : List String) : Option String :=
  let cleaned := cleanParts parts
  match cleaned with
  | [] => none
  | [single] =>
    if businessWords.contains (upperStr single) then
      (let s := pyStripStr (joinSp [single])
       if s.data.isEmpty then none else some s)
    else some (pyStripStr single)
  | last :: r :: rest =>
    if (last :: r :: rest).any (fun x => businessWords.contains (upperStr x)) then
      (let s := pyStripStr (joinSp (last :: r :: rest))
       if s.data.isEmpty then none else some s)
    else some (pyStripStr (joinSp ((r :: rest) ++ [last])))

/-- The officer-name flip of parse_corp_line: LAST FIRST REST becomes
FIRST REST LAST when at least two parts are present. -/
def flip_name : List String → Option String
  | [] => none
  | [single] => some (pyStripStr single)
  | last :: r :: rest => some (pyStripStr (joinSp ((r :: rest) ++ [last])))

/-! ## Filing facts (step 2 of parse_corp_line) -/

/-- Facts gathered by the forward scan between the addresses and the
registered-agent block, together with the cursor after the scan. -/
structure Facts where
  formation_date : Option String
  fei_ein : Option String
  annual_report_year : Option String
  report_dates : List String
  next : Nat
deriving DecidableEq

/-- The leading while loop of step 2: advance the cursor to the first 8-digit
date token, or to the end of the stream. -/
def skip_to_date (tokens : List String) (j : Nat) : Nat :=
  match scanFirst (fun k => looks_like_date (tokens.getD k "")) j tokens.length with
  | some k => k
  | none => max j tokens.length

/-- The report-dates loop, fueled by the remaining token count: collect date
tokens and skip year tokens until a compact agent code, a role token or an
unrecognized token. -/
def reportGo (tokens : List String) : Nat → Nat → List String × Nat
  | 0, j => ([], j)
  | fuel + 1, j =>
    if j < tokens.length then
      let t := tokens.getD j ""
      if isCcode t || roleTokens.contains t then ([], j)
      else if looks_like_date t then
        let r := reportGo tokens fuel (j + 1)
        (t :: r.1, r.2)
      else if looks_like_year t then reportGo tokens fuel (j + 1)
      else ([], j)
    else ([], j)

/-- The report-dates loop of step 2 of parse_corp_line. -/
def report_loop (tokens : List String) (j : Nat) : List String × Nat :=
  reportGo tokens (tokens.length - j) j

/-- The filing-facts chain after the leading skip loop placed the cursor at
j0: formation date, tax id, skipped flag, one swallowed extra date,
annual-report year, then the report-dates loop. -/
def facts_after (tokens : List String) (j0 : Nat) : Facts :=
  let fd := if decide (j0 < tokens.length) && looks_like_date (tokens.getD j0 "")
            then some (tokens.getD j0 "") else none
  let j1 := if fd.isSome then j0 + 1 else j0
  let fe := if decide (j1 < tokens.length) &&
               (looks_like_ein (tokens.getD j1 "") || looks_like_fei9 (tokens.getD j1 ""))
            then some (tokens.getD j1 "") else none
  let j2 := if fe.isSome then j1 + 1 else j1
  let j3 := if decide (j2 < tokens.length) && isSingleUpper (tokens.getD j2 "")
            then j2 + 1 else j2
  let j4 := if decide (j3 < tokens.length) && looks_like_date (tokens.getD j3 "")
            then j3 + 1 else j3
  let yr := if decide (j4 < tokens.length) && isFLyear (tokens.getD j4 "")
            then some (String.mk ((tokens.getD j4 "").data.drop 2)) else none
  let j5 := if yr.isSome then j4 + 1 else j4
  let rl := report_loop tokens j5
  { formation_date := fd, fei_ein := fe, annual_report_year := yr,
    report_dates := rl.1, next := rl.2 }

/-- Step 2 of parse_corp_line: skip to the first date token, then run the
filing-facts chain from there. -/
def filing_facts (tokens : List String) (idx : Nat) : Facts :=
  facts_after tokens (skip_to_date tokens idx)

/-! ## Registered-agent extractor (step 3 of parse_corp_line) -/

/-- The copied token list of format A: the token at the code index with its C
prefix stripped; the original list is not modified. -/
def ra_tokens_of (tokens : List String) (c : Nat) : List String :=
  tokens.set c (String.mk ((tokens.getD c "").data.drop 1))

/-- Step 3 of parse_corp_line: format A looks for a compact C code anywhere
ahead and always commits; format B looks for a standalone P marker within a
window of 160 tokens and commits only when the following address parse
succeeds. -/
def ra_step (tokens : List String) (j : Nat) : Option RegisteredAgent × Nat :=
  match scanFirst (fun k => isCcode (tokens.getD k "")) j tokens.length with
  | some c =>
    let raName := clean_and_flip_agent_name ((tokens.drop j).take (c - j))
    let pa := parse_address (ra_tokens_of tokens c) c
    (some { name := raName, address := pa.1 }, pa.2)
  | none =>
    match scanFirst (fun k => tokens.getD k "" == "P") j
            (min tokens.length (j + 160)) with
    | some p =>
      let raName := clean_and_flip_agent_name ((tokens.drop j).take (p - j))
      let pa := parse_address tokens (p + 1)
      (match pa.1 with
       | some a => (some { name := raName, address := some a }, pa.2)
       | none => (none, j))
    | none => (none, j)

/-! ## Officer block extractor (step 4 of parse_corp_line) -/

/-- The inner name-token loop, fueled by the remaining token count: consume
up to 14 name tokens, stopping at role codes, compact codes, date, year, EIN,
FEI or street-number shaped tokens. -/
def nameGo (tokens : List String) : Nat → Nat → List String → List String × Nat
  | 0, i, acc => (acc.reverse, i)
  | fuel + 1, i, acc =>
    if i < tokens.length then
      let t := tokens.getD i ""
      if roleTokens.contains t || isCcode t then (acc.reverse, i)
      else if looks_like_date t || looks_like_year t || looks_like_ein t ||
              looks_like_fei9 t then (acc.reverse, i)
      else if looks_like_street_number t then (acc.reverse, i)
      else
        let acc2 := normalize_person_token t :: acc
        if decide (14 ≤ acc2.length) then (acc2.reverse, i + 1)
        else nameGo tokens fuel (i + 1) acc2
    else (acc.reverse, i)

/-- The officer name scan starting at index i. -/
def name_scan (tokens : List String) (i : Nat) : List String × Nat :=
  nameGo tokens (tokens.length - i) i []

/-- Cursor after the role token and the optional single P marker. -/
def officerI2 (tokens : List String) (i : Nat) : Nat :=
  if decide (i + 1 < tokens.length) && (tokens.getD (i + 1) "" == "P")
  then i + 2 else i + 1

/-- The officer address attempt: parse directly at a street number, otherwise
try anyway and keep the result only when an address was found. -/
def officerAddr (tokens : List String) (k : Nat) : Option Address × Nat :=
  if decide (k < tokens.length) && looks_like_street_number (tokens.getD k "")
  then parse_address tokens k
  else
    match parse_address tokens k with
    | (some a, ni) => (some a, ni)
    | (none, _) => (none, k)

/-- One officer record, taken at a role-code hit: the role token, the flipped
name run, the optional address, and the cursor after everything consumed. -/
def officerStep (tokens : List String) (i : Nat) : Officer × Nat :=
  ({ role := tokens.getD i ""
     name := flip_name (name_scan tokens (officerI2 tokens i)).1
     address := (officerAddr tokens (name_scan tokens (officerI2 tokens i)).2).1 },
   (officerAddr tokens (name_scan tokens (officerI2 tokens i)).2).2)

/-- The officer loop of parse_corp_line, fueled: outside an officer record
advance one token; on a role code consume one officer record and continue. -/
def officersFrom (tokens : List String) : Nat → Nat → List Officer
  | 0, _ => []
  | fuel + 1, i =>
    if i < tokens.length then
      if roleTokens.contains (tokens.getD i "") then
        (officerStep tokens i).1 :: officersFrom tokens fuel (officerStep tokens i).2
      else officersFrom tokens fuel (i + 1)
    else []

/-! ## Header extraction and the assembled parser -/

/-- Leftmost whole-word occurrence of tok in l: the index where tok is a
prefix with word boundaries on both sides. -/
def findWordAux (tok : List Char) : Option Char → Nat → List Char → Option Nat
  | _, _, [] => none
  | prev, i, c :: rest =>
    if bdry prev && tok.isPrefixOf (c :: rest) && bAfter ((c :: rest).drop tok.length)
    then some i
    else findWordAux tok (some c) (i + 1) rest

/-- Search for a whole-word occurrence of a vocabulary token. -/
def find_word (tok : String) (l : List Char) : Option Nat :=
  findWordAux tok.data none 0 l

/-- The type-token selection of parse_corp_line: the token whose whole-word
match starts earliest (strictly earlier replaces the current best). -/
def pick_type (s : List Char) : Option (String × Nat) :=
  typeTokens.foldl
    (fun best tok =>
      match find_word tok s with
      | some p =>
        (match best with
         | none => some (tok, p)
         | some b => if p < b.2 then some (tok, p) else best)
      | none => best)
    none

/-- The clean helper of data.py applied to a present string. -/
def clean_str (s : String) : String :=
  pyStripStr s

/-- The normalized raw line kept in the record. -/
def raw_of (line : String) : String :=
  normalize_ws line

/-- The cleaned caller-supplied document number. -/
def doc_clean_of (doc : String) : String :=
  clean_str doc

/-- The working string after stripping the document-number prefix when the
uppercased line starts with the uppercased cleaned document number. -/
def s_of (doc line : String) : String :=
  let raw := raw_of line
  let dc := doc_clean_of doc
  if !dc.data.isEmpty && (upperChars dc.data).isPrefixOf (upperChars raw.data)
  then pyStripStr (String.mk (raw.data.drop dc.data.length))
  else raw

/-- The header split: entity name, optional type code, and the remainder
string handed to the tokenizer.  With a type match the remainder is the
stripped tail with the leading type token and following spaces removed; with
no match the first 80 characters become the name. -/
def header_of (doc line : String) : String × Option String × String :=
  let s := (s_of doc line).data
  match pick_type s with
  | some tp =>
    let ename := pyStripStr (String.mk (s.take tp.2))
    let rem0 := pyStripChars (s.drop tp.2)
    let rem := if tp.1.data.isPrefixOf rem0 && bAfter (rem0.drop tp.1.data.length)
               then String.mk ((rem0.drop tp.1.data.length).dropWhile pySpace)
               else String.mk rem0
    (ename, some tp.1, rem)
  | none =>
    let ename := pyStripStr (String.mk (s.take 80))
    let rem := pyStripStr (String.mk (s.drop ename.data.length))
    (ename, none, rem)

/-- The token stream of parse_corp_line: the tokenized remainder. -/
def tokens_of (doc line : String) : List String :=
  tokenize (header_of doc line).2.2

/-- Step 1, principal address: parse from the start of the stream. -/
def principal_pair (doc line : String) : Option Address × Nat :=
  parse_address (tokens_of doc line) 0

/-- Step 1, mailing address: parse from the cursor when a principal address
was found, else from the start. -/
def mailing_pair (doc line : String) : Option Address × Nat :=
  let pp := principal_pair doc line
  parse_address (tokens_of doc line) (if pp.1.isSome then pp.2 else 0)

/-- The cursor after both address parses. -/
def idx_after_addresses (doc line : String) : Nat :=
  (mailing_pair doc line).2

/-- The filing facts of the record. -/
def facts_of (doc line : String) : Facts :=
  filing_facts (tokens_of doc line) (idx_after_addresses doc line)

/-- The registered-agent result and the cursor for the officer scan. -/
def ra_pair_of (doc line : String) : Option RegisteredAgent × Nat :=
  ra_step (tokens_of doc line) (facts_of doc line).next

/-- The officer list of the record.  The loop fuel is the token count, which
the fuel-stability lemma shows is enough for the loop to run to completion. -/
def officers_of (doc line : String) : List Officer :=
  officersFrom (tokens_of doc line) (tokens_of doc line).length
    (ra_pair_of doc line).2

/-- The parse_corp_line of data.py, assembling all extractor outputs. -/
def parse_corp_line (doc line : String) : ParsedRecord :=
  { document_number := doc_clean_of doc
    entity_name := (header_of doc line).1
    entity_type_code := (header_of doc line).2.1
    principal_address := (principal_pair doc line).1
    mailing_address := (mailing_pair doc line).1
    formation_date := (facts_of doc line).formation_date
    fei_ein := (facts_of doc line).fei_ein
    annual_report_year := (facts_of doc line).annual_report_year
    report_dates := (facts_of doc line).report_dates
    registered_agent := (ra_pair_of doc line).1
    officers := officers_of doc line
    raw_line := raw_of line }

/-! ## Search ranking (the in-memory part of search_entities; the duckdb
retrieval that supplies the candidate rows is external storage and is
modelled as the given candidate list) -/

/-- The summary dict built by search_entities from one parsed row. -/
def summarize (doc line : String) : Summary :=
  let p := parse_corp_line doc line
  { document_number := p.document_number
    entity_name := p.entity_name
    entity_type_code := p.entity_type_code
    principal_city := p.principal_address.map (fun a => a.city)
    principal_state := p.principal_address.map (fun a => a.state) }

/-- Lexicographic comparison of character lists by code point, matching the
string comparison used by the Python tuple sort. -/
def charsLe : List Char → List Char → Bool
  | [], _ => true
  | _ :: _, [] => false
  | a :: as, b :: bs =>
    decide (a.toNat < b.toNat) || (decide (a.toNat = b.toNat) && charsLe as bs)

/-- The rank tuple of search_entities: exact document match first, then name
prefix match, then the uppercased name. -/
def rank_key (qUp : String) (it : Summary) : Nat × Nat × String :=
  let d := upperStr it.document_number
  let n := upperStr it.entity_name
  (if d == qUp then 0 else 1,
   if qUp.data.isPrefixOf n.data then 0 else 1,
   n)

/-- Ascending lexicographic order on rank tuples. -/
def key_le (a b : Nat × Nat × String) : Bool :=
  decide (a.1 < b.1) ||
  (decide (a.1 = b.1) &&
   (decide (a.2.1 < b.2.1) ||
    (decide (a.2.1 = b.2.1) && charsLe a.2.2.data b.2.2.data)))

/-- The comparison used to sort summaries. -/
def rank_le (qUp : String) (x y : Summary) : Bool :=
  key_le (rank_key qUp x) (rank_key qUp y)

/-- The clamped result limit of search_entities: a zero (falsy) limit falls
back to 10, then the value is clamped to the range 1 to 50. -/
def clampLimit (limit : Nat) : Nat :=
  max 1 (min (if limit == 0 then 10 else limit) 50)

/-- The in-memory part of search_entities: parse every candidate row into a
summary, sort ascending by the rank tuple and truncate to the clamped limit.
Python list sort is a stable ascending sort; the stable insertion sort used
here computes the same list for the total preorder given by the rank tuple. -/
def search_entities (cands : List (String × String)) (q0 : String)
    (limit : Nat) : List Summary :=
  let q := clean_str q0
  let out := cands.map (fun dl => summarize dl.1 dl.2)
  let qUp := upperStr q
  (out.insertionSort (fun x y => rank_le qUp x y = true)).take (clampLimit limit)

/-! ## Concrete inputs used by the theorems -/

/-- The corp line of the specification scenario. -/
def scenario_line : String :=
  "L23000013604 BHMS CONSULTING LLC IDOMP 2160 US1 SUNRISE BLVD STE 200 FORT LAUDERDALE FL 33304 US 04042023 92-1234567 N FL2025 04042023 C1234567 5678 SUNRISE BLVD FORT LAUDERDALE FL 33304 MGR P JOHN SMITH 2160 SUNRISE BLVD FORT LAUDERDALE FL 33304"

/-- A corp line whose post-address remainder holds a compact agent code and a
role token but no 8-digit date token. -/
def no_date_line : String :=
  "L1 X IDOMP 1 MAIN ST MIAMI FL 33131 C1234 MGR P JOHN SMITH"

/-! ## Helper lemmas about the bounded scans -/

theorem scanGo_eq_some {p : Nat → Bool} :
    ∀ (fuel k j : Nat), scanGo p k fuel = some j →
      k ≤ j ∧ j < k + fuel ∧ p j = true := by
  intro fuel
  induction fuel with
  | zero => intro k j h; simp [scanGo] at h
  | succ n ih =>
    intro k j h
    rw [scanGo] at h
    by_cases hp : p k = true
    · rw [if_pos hp] at h
      obtain rfl : k = j := by simpa using h
      exact ⟨Nat.le_refl _, by omega, hp⟩
    · rw [if_neg hp] at h
      obtain ⟨h1, h2, h3⟩ := ih (k + 1) j h
      exact ⟨by omega, by omega, h3⟩

theorem scanGo_eq_none_of {p : Nat → Bool} :
    ∀ (fuel k : Nat), (∀ j, k ≤ j → j < k + fuel → p j = false) →
      scanGo p k fuel = none := by
  intro fuel
  induction fuel with
  | zero => intro k _; rfl
  | succ n ih =>
    intro k h
    rw [scanGo, if_neg (by simp [h k (Nat.le_refl _) (by omega)])]
    exact ih (k + 1) (fun j hj1 hj2 => h j (by omega) (by omega))

theorem scanFirst_eq_some {p : Nat → Bool} {start stop j : Nat}
    (h : scanFirst p start stop = some j) :
    start ≤ j ∧ j < stop ∧ p j = true := by
  obtain ⟨h1, h2, h3⟩ := scanGo_eq_some (stop - start) start j h
  exact ⟨h1, by omega, h3⟩

theorem scanFirst_eq_none_of {p : Nat → Bool} {start stop : Nat}
    (h : ∀ j, start ≤ j → j < stop → p j = false) :
    scanFirst p start stop = none :=
  scanGo_eq_none_of (stop - start) start (fun j hj1 hj2 => h j hj1 (by omega))

/-! ## Helper lemmas about the address extractor -/

theorem parse_address_snd_ge (tokens : List String) (start : Nat) :
    start ≤ (parse_address tokens start).2 := by
  unfold parse_address
  cases hfs : find_state_zip tokens start 140 with
  | none => exact Nat.le_refl _
  | some si =>
    obtain ⟨h1, _, _⟩ := scanFirst_eq_some hfs
    simp only []
    split <;> omega

theorem parse_address_snd_le (tokens : List String) (start : Nat) :
    (parse_address tokens start).2 ≤ max start tokens.length := by
  unfold parse_address
  cases hfs : find_state_zip tokens start 140 with
  | none => exact Nat.le_max_left _ _
  | some si =>
    obtain ⟨h1, h2, _⟩ := scanFirst_eq_some hfs
    simp only []
    split
    case isTrue h =>
      rw [Bool.and_eq_true, decide_eq_true_eq] at h
      omega
    case isFalse h => omega

/-! ## Helper lemmas about the officer loop -/

theorem nameGo_snd_ge (tokens : List String) :
    ∀ (fuel i : Nat) (acc : List String), i ≤ (nameGo tokens fuel i acc).2 := by
  intro fuel
  induction fuel with
  | zero => intro i acc; exact Nat.le_refl _
  | succ n ih =>
    intro i acc
    simp only [nameGo]
    split
    case isFalse => exact Nat.le_refl _
    case isTrue =>
      split
      case isTrue => exact Nat.le_refl _
      case isFalse =>
        split
        case isTrue => exact Nat.le_refl _
        case isFalse =>
          split
          case isTrue => exact Nat.le_refl _
          case isFalse =>
            split
            case isTrue => exact Nat.le_succ _
            case isFalse => exact Nat.le_trans (Nat.le_succ _) (ih (i + 1) _)

theorem name_scan_snd_ge (tokens : List String) (i : Nat) :
    i ≤ (name_scan tokens i).2 :=
  nameGo_snd_ge tokens _ i []

theorem officerI2_ge (tokens : List String) (i : Nat) :
    i + 1 ≤ officerI2 tokens i := by
  unfold officerI2
  split <;> omega

theorem officerAddr_snd_ge (tokens : List String) (k : Nat) :
    k ≤ (officerAddr tokens k).2 := by
  unfold officerAddr
  split
  case isTrue => exact parse_address_snd_ge tokens k
  case isFalse =>
    cases hpa : parse_address tokens k with
    | mk o ni =>
      cases o with
      | some a =>
        have := parse_address_snd_ge tokens k
        rw [hpa] at this
        simpa using this
      | none => exact Nat.le_refl _

theorem officerStep_snd_ge (tokens : List String) (i : Nat) :
    i + 1 ≤ (officerStep tokens i).2 := by
  unfold officerStep
  calc i + 1 ≤ officerI2 tokens i := officerI2_ge tokens i
    _ ≤ (name_scan tokens (officerI2 tokens i)).2 := name_scan_snd_ge _ _
    _ ≤ _ := officerAddr_snd_ge _ _

theorem officersFrom_at_end (tokens : List String) :
    ∀ (fuel i : Nat), tokens.length ≤ i → officersFrom tokens fuel i = [] := by
  intro fuel i h
  cases fuel with
  | zero => rfl
  | succ n => rw [officersFrom, if_neg (by omega)]

/-- Fuel stability of the officer loop: any fuel at least the remaining token
count gives the same output, since every iteration advances the cursor. -/
theorem officersFrom_congr (tokens : List String) :
    ∀ (f1 f2 i : Nat), tokens.length - i ≤ f1 → tokens.length - i ≤ f2 →
      officersFrom tokens f1 i = officersFrom tokens f2 i := by
  intro f1
  induction f1 using Nat.strong_induction_on with
  | _ f1 IH =>
    intro f2 i h1 h2
    by_cases hi : i < tokens.length
    case neg =>
      rw [officersFrom_at_end tokens f1 i (by omega),
          officersFrom_at_end tokens f2 i (by omega)]
    case pos =>
      obtain ⟨a, rfl⟩ : ∃ a, f1 = a + 1 := ⟨f1 - 1, by omega⟩
      obtain ⟨b, rfl⟩ : ∃ b, f2 = b + 1 := ⟨f2 - 1, by omega⟩
      rw [officersFrom, officersFrom, if_pos hi, if_pos hi]
      by_cases hr : roleTokens.contains (tokens.getD i "") = true
      case pos =>
        rw [if_pos hr, if_pos hr]
        have hstep := officerStep_snd_ge tokens i
        rw [IH a (by omega) b (officerStep tokens i).2 (by omega) (by omega)]
      case neg =>
        rw [if_neg hr, if_neg hr]
        exact IH a (by omega) b (i + 1) (by omega) (by omega)

/-! ## Helper lemmas about the registered-agent step and the filing scan -/

theorem ra_step_at_end (tokens : List String) (j : Nat)
    (h : tokens.length ≤ j) : ra_step tokens j = (none, j) := by
  have h1 : tokens.length - j = 0 := by omega
  have h2 : min tokens.length (j + 160) - j = 0 := by omega
  unfold ra_step
  rw [show scanFirst (fun k => isCcode (tokens.getD k "")) j tokens.length = none
        from by unfold scanFirst; rw [h1]; rfl]
  rw [show scanFirst (fun k => tokens.getD k "" == "P") j
            (min tokens.length (j + 160)) = none
        from by unfold scanFirst; rw [h2]; rfl]

theorem getD_set_ne {α : Type} (l : List α) (c k : Nat) (v d : α)
    (h : k ≠ c) : (l.set c v).getD k d = l.getD k d := by
  rw [List.getD_eq_getElem?_getD, List.getD_eq_getElem?_getD,
      List.getElem?_set_ne (by omega)]

theorem skip_to_date_at_none (tokens : List String) (idx : Nat)
    (hidx : idx ≤ tokens.length)
    (h : ∀ k, k < tokens.length → idx ≤ k →
      looks_like_date (tokens.getD k "") = false) :
    skip_to_date tokens idx = tokens.length := by
  unfold skip_to_date
  rw [scanFirst_eq_none_of (fun j hj1 hj2 => h j hj2 hj1)]
  show max idx tokens.length = tokens.length
  omega

theorem report_loop_at_end (tokens : List String) (j : Nat)
    (h : tokens.length ≤ j) : report_loop tokens j = ([], j) := by
  unfold report_loop
  rw [show tokens.length - j = 0 from by omega]
  rfl

theorem facts_after_at_end (tokens : List String) (j0 : Nat)
    (h : tokens.length ≤ j0) :
    facts_after tokens j0 =
      { formation_date := none, fei_ein := none, annual_report_year := none,
        report_dates := [], next := j0 } := by
  have hlt : ¬(j0 < tokens.length) := by omega
  unfold facts_after
  simp [decide_eq_false hlt, report_loop_at_end tokens j0 h]

theorem filing_facts_no_date (tokens : List String) (idx : Nat)
    (hidx : idx ≤ tokens.length)
    (h : ∀ k, k < tokens.length → idx ≤ k →
      looks_like_date (tokens.getD k "") = false) :
    filing_facts tokens idx =
      { formation_date := none, fei_ein := none, annual_report_year := none,
        report_dates := [], next := tokens.length } := by
  unfold filing_facts
  rw [skip_to_date_at_none tokens idx hidx h]
  exact facts_after_at_end tokens tokens.length (Nat.le_refl _)

theorem idx_after_addresses_le (doc line : String) :
    idx_after_addresses doc line ≤ (tokens_of doc line).length := by
  have h2 : (principal_pair doc line).2 ≤ (tokens_of doc line).length := by
    have h := parse_address_snd_le (tokens_of doc line) 0
    unfold principal_pair
    omega
  unfold idx_after_addresses mailing_pair
  show (parse_address (tokens_of doc line)
    (if (principal_pair doc line).1.isSome = true
     then (principal_pair doc line).2 else 0)).2 ≤ _
  by_cases hp : (principal_pair doc line).1.isSome = true
  · rw [if_pos hp]
    have := parse_address_snd_le (tokens_of doc line) (principal_pair doc line).2
    omega
  · rw [if_neg hp]
    have := parse_address_snd_le (tokens_of doc line) 0
    omega

/-! ## Helper lemmas about the ranking order -/

theorem charsLe_total : ∀ (x y : List Char), (charsLe x y || charsLe y x) = true := by
  intro x
  induction x with
  | nil => intro y; simp [charsLe]
  | cons a as ih =>
    intro y
    cases y with
    | nil => simp [charsLe]
    | cons b bs =>
      simp only [charsLe, Bool.or_eq_true, Bool.and_eq_true, decide_eq_true_eq]
      rcases Nat.lt_trichotomy a.toNat b.toNat with h | h | h
      · exact Or.inl (Or.inl h)
      · rcases Bool.or_eq_true _ _ |>.mp (ih bs) with h2 | h2
        · exact Or.inl (Or.inr ⟨h, h2⟩)
        · exact Or.inr (Or.inr ⟨h.symm, h2⟩)
      · exact Or.inr (Or.inl h)

theorem charsLe_trans : ∀ (x y z : List Char),
    charsLe x y = true → charsLe y z = true → charsLe x z = true := by
  intro x
  induction x with
  | nil => intro y z _ _; simp [charsLe]
  | cons a as ih =>
    intro y z hxy hyz
    cases y with
    | nil => simp [charsLe] at hxy
    | cons b bs =>
      cases z with
      | nil => simp [charsLe] at hyz
      | cons c cs =>
        simp only [charsLe, Bool.or_eq_true, Bool.and_eq_true,
          decide_eq_true_eq] at hxy hyz ⊢
        rcases hxy with h1 | ⟨h1, r1⟩ <;> rcases hyz with h2 | ⟨h2, r2⟩
        · exact Or.inl (by omega)
        · exact Or.inl (by omega)
        · exact Or.inl (by omega)
        · exact Or.inr ⟨by omega, ih bs cs r1 r2⟩

theorem key_le_total : ∀ (a b : Nat × Nat × String),
    (key_le a b || key_le b a) = true := by
  intro a b
  simp only [key_le, Bool.or_eq_true, Bool.and_eq_true, decide_eq_true_eq]
  rcases Nat.lt_trichotomy a.1 b.1 with h | h | h
  · exact Or.inl (Or.inl h)
  · rcases Nat.lt_trichotomy a.2.1 b.2.1 with h2 | h2 | h2
    · exact Or.inl (Or.inr ⟨h, Or.inl h2⟩)
    · rcases Bool.or_eq_true _ _ |>.mp (charsLe_total a.2.2.data b.2.2.data) with h3 | h3
      · exact Or.inl (Or.inr ⟨h, Or.inr ⟨h2, h3⟩⟩)
      · exact Or.inr (Or.inr ⟨h.symm, Or.inr ⟨h2.symm, h3⟩⟩)
    · exact Or.inr (Or.inr ⟨h.symm, Or.inl h2⟩)
  · exact Or.inr (Or.inl h)

theorem key_le_trans : ∀ (a b c : Nat × Nat × String),
    key_le a b = true → key_le b c = true → key_le a c = true := by
  intro a b c hab hbc
  simp only [key_le, Bool.or_eq_true, Bool.and_eq_true,
    decide_eq_true_eq] at hab hbc ⊢
  rcases hab with h1 | ⟨h1, hab2⟩
  · rcases hbc with h2 | ⟨h2, _⟩
    · exact Or.inl (by omega)
    · exact Or.inl (by omega)
  · rcases hbc with h2 | ⟨h2, hbc2⟩
    · exact Or.inl (by omega)
    · refine Or.inr ⟨by omega, ?_⟩
      rcases hab2 with h3 | ⟨h3, r3⟩
      · rcases hbc2 with h4 | ⟨h4, _⟩
        · exact Or.inl (by omega)
        · exact Or.inl (by omega)
      · rcases hbc2 with h4 | ⟨h4, r4⟩
        · exact Or.inl (by omega)
        · exact Or.inr ⟨by omega, charsLe_trans _ _ _ r3 r4⟩

theorem rank_le_total (qUp : String) : ∀ (x y : Summary),
    (rank_le qUp x y || rank_le qUp y x) = true := by
  intro x y
  exact key_le_total _ _

theorem rank_le_trans (qUp : String) : ∀ (x y z : Summary),
    rank_le qUp x y = true → rank_le qUp y z = true → rank_le qUp x z = true := by
  intro x y z
  exact key_le_trans _ _ _

/-! ## Claim theorems -/

/-- C2: the spec states that the Normalizer is idempotent for all inputs.
The code is not: on the input 12345678P9 the date-letters rule inserts a
space that creates a word boundary before P, and on a second pass the
P-digit rule fires again, so normalize of normalize differs from normalize.
This theorem evaluates the code at that failing input. -/
theorem normalize_not_idempotent :
    normalize_ws "12345678P9" = "12345678 P9" ∧
    normalize_ws (normalize_ws "12345678P9") = "12345678 P 9" ∧
    normalize_ws (normalize_ws "12345678P9") ≠ normalize_ws "12345678P9" := by
  refine ⟨by decide, by decide, ?_⟩
  intro h
  rw [show normalize_ws (normalize_ws "12345678P9") = "12345678 P 9" from by decide,
      show normalize_ws "12345678P9" = "12345678 P9" from by decide] at h
  exact absurd h (by decide)

/-- C1 counterexample: on the scenario line of spec section 8, parse_corp_line
does not return formation_date 04042023; it returns no formation date at all
(and no registered agent and no officers), so the scenario claim is false on
the code. -/
theorem scenario_deviates :
    ¬((parse_corp_line "L23000013604" scenario_line).formation_date =
        some "04042023" ∧
      (parse_corp_line "L23000013604" scenario_line).annual_report_year =
        some "2025" ∧
      (parse_corp_line "L23000013604" scenario_line).registered_agent ≠ none ∧
      (parse_corp_line "L23000013604" scenario_line).officers.length = 1) := by
  intro h
  exact absurd h.1 (by decide)

/-- C1 amended: what parse_corp_line actually returns on the scenario line.
The entity name, type code and principal address agree with the scenario, but
the mailing-address pass anchors on the registered-agent state and zip and
consumes the filing-fact and agent tokens, so formation_date, fei_ein,
annual_report_year, registered_agent are empty and officers is empty. -/
theorem scenario_actual :
    (parse_corp_line "L23000013604" scenario_line).document_number =
      "L23000013604" ∧
    (parse_corp_line "L23000013604" scenario_line).entity_name =
      "BHMS CONSULTING LLC" ∧
    (parse_corp_line "L23000013604" scenario_line).entity_type_code =
      some "IDOMP" ∧
    (parse_corp_line "L23000013604" scenario_line).principal_address =
      some { address1 := "2160 US 1 SUNRISE BLVD", address2 := some "STE 200",
             city := "FORT LAUDERDALE", state := "FL", zip := "33304",
             country := some "US" } ∧
    (parse_corp_line "L23000013604" scenario_line).mailing_address =
      some { address1 :=
               "04042023 92-1234567 N FL2025 04042023 C1234567 5678 SUNRISE BLVD",
             address2 := none, city := "FORT LAUDERDALE", state := "FL",
             zip := "33304", country := none } ∧
    (parse_corp_line "L23000013604" scenario_line).formation_date = none ∧
    (parse_corp_line "L23000013604" scenario_line).fei_ein = none ∧
    (parse_corp_line "L23000013604" scenario_line).annual_report_year = none ∧
    (parse_corp_line "L23000013604" scenario_line).report_dates = [] ∧
    (parse_corp_line "L23000013604" scenario_line).registered_agent = none ∧
    (parse_corp_line "L23000013604" scenario_line).officers = [] := by
  decide

/-- C3: parse_corp_line is a total Lean function on arbitrary input strings
(its loops are structurally fueled translations of the bounded Python loops),
the returned record always carries the cleaned document number and the
normalized raw line, the single unguarded token access of the Python code
(tokens at j plus 1 inside find_state_zip) is always in bounds, and a fully
unparseable input still yields a well-formed record with empty fields. -/
theorem parse_record_total :
    (∀ doc line,
       (parse_corp_line doc line).document_number = clean_str doc ∧
       (parse_corp_line doc line).raw_line = normalize_ws line) ∧
    (∀ (tokens : List String) (start j : Nat),
       find_state_zip tokens start 140 = some j → j + 1 < tokens.length) ∧
    parse_corp_line "D1" "" =
      { document_number := "D1", entity_name := "", entity_type_code := none,
        principal_address := none, mailing_address := none,
        formation_date := none, fei_ein := none, annual_report_year := none,
        report_dates := [], registered_agent := none, officers := [],
        raw_line := "" } := by
  refine ⟨fun doc line => ⟨rfl, rfl⟩, ?_, by decide⟩
  intro tokens start j h
  obtain ⟨h1, h2, _⟩ := scanFirst_eq_some h
  omega

/-- C3 witness. -/
theorem parse_record_total_witness :
    ((parse_corp_line "A" "B").document_number = clean_str "A" ∧
     (parse_corp_line "A" "B").raw_line = normalize_ws "B") ∧
    0 + 1 < (["FL", "33131"] : List String).length :=
  ⟨parse_record_total.1 "A" "B",
   parse_record_total.2.1 ["FL", "33131"] 0 0 (by decide)⟩

/-- C4: whenever parse_address returns an address, its state is a member of
the fixed 51-element state and DC set, its zip matches the zip pattern, and
neither field is empty. -/
theorem address_state_zip_invariant :
    usStates.length = 51 ∧
    ∀ (tokens : List String) (start : Nat) (a : Address) (ni : Nat),
      parse_address tokens start = (some a, ni) →
      a.state ∈ usStates ∧ looks_like_zip a.zip = true ∧
      a.state ≠ "" ∧ a.zip ≠ "" := by
  refine ⟨rfl, ?_⟩
  intro tokens start a ni h
  unfold parse_address at h
  cases hfs : find_state_zip tokens start 140 with
  | none => rw [hfs] at h; simp at h
  | some si =>
    rw [hfs] at h
    obtain ⟨_, _, hp⟩ := scanFirst_eq_some hfs
    rw [Bool.and_eq_true] at hp
    simp only [Prod.mk.injEq, Option.some.injEq] at h
    obtain ⟨ha, _⟩ := h
    subst ha
    refine ⟨?_, hp.2, ?_, ?_⟩
    · exact List.mem_of_elem_eq_true hp.1
    · have hne : ∀ s ∈ usStates, s ≠ "" := by decide
      exact hne _ (List.mem_of_elem_eq_true hp.1)
    · intro he
      have he2 : tokens.getD (si + 1) "" = "" := he
      rw [he2] at hp
      exact absurd hp.2 (by decide)

/-- C4 witness. -/
theorem address_state_zip_invariant_witness :
    ("FL" : String) ∈ usStates ∧ looks_like_zip "33131" = true ∧
    ("FL" : String) ≠ "" ∧ ("33131" : String) ≠ "" :=
  address_state_zip_invariant.2 ["MIAMI", "FL", "33131"] 0
    { address1 := "", address2 := none, city := "MIAMI", state := "FL",
      zip := "33131", country := none } 3 (by decide)

/-- C5: when no position of the lookahead window carries a state code
followed by a zip token, parse_address returns no address and leaves the
cursor unchanged. -/
theorem address_extractor_declines :
    ∀ (tokens : List String) (start : Nat),
      (∀ i, i < min (tokens.length - 1) (start + 140) → start ≤ i →
        ¬(usStates.contains (tokens.getD i "") = true ∧
          looks_like_zip (tokens.getD (i + 1) "") = true)) →
      parse_address tokens start = (none, start) := by
  intro tokens start h
  have hn : find_state_zip tokens start 140 = none := by
    apply scanFirst_eq_none_of
    intro j hj1 hj2
    have hnot := h j hj2 hj1
    cases hA : usStates.contains (tokens.getD j "") with
    | false => simp [hA]
    | true =>
      cases hB : looks_like_zip (tokens.getD (j + 1) "") with
      | false => simp [hA, hB]
      | true => exact absurd ⟨hA, hB⟩ hnot
  unfold parse_address
  rw [hn]

/-- C5 witness. -/
theorem address_extractor_declines_witness :
    parse_address ["JOHN", "SMITH"] 0 = (none, 0) :=
  address_extractor_declines ["JOHN", "SMITH"] 0 (by decide)

/-- C6: when no compact C code exists anywhere ahead (so format B runs) and
the address parse after a found P marker fails, or no P marker is found at
all, the registered-agent step yields no agent and returns the cursor at its
pre-attempt position, from which the officer scan continues. -/
theorem agent_marker_requires_address :
    ∀ (tokens : List String) (j : Nat),
      (∀ k, k < tokens.length → j ≤ k → isCcode (tokens.getD k "") = false) →
      (∀ p, p < tokens.length →
        scanFirst (fun k => tokens.getD k "" == "P") j
          (min tokens.length (j + 160)) = some p →
        (parse_address tokens (p + 1)).1 = none) →
      ra_step tokens j = (none, j) := by
  intro tokens j h1 h2
  have hC : scanFirst (fun k => isCcode (tokens.getD k "")) j tokens.length
      = none :=
    scanFirst_eq_none_of (fun k hk1 hk2 => h1 k hk2 hk1)
  unfold ra_step
  rw [hC]
  cases hp : scanFirst (fun k => tokens.getD k "" == "P") j
      (min tokens.length (j + 160)) with
  | none => rfl
  | some p =>
    have hplen : p < tokens.length := by
      obtain ⟨_, hb, _⟩ := scanFirst_eq_some hp
      omega
    have ha := h2 p hplen hp
    cases hpa : parse_address tokens (p + 1) with
    | mk o ni =>
      rw [hpa] at ha
      simp only [] at ha
      subst ha
      simp only [hpa]

/-- C6 witness. -/
theorem agent_marker_requires_address_witness :
    ra_step ["AGENT", "NAME", "P", "NOWHERE"] 0 = (none, 0) :=
  agent_marker_requires_address ["AGENT", "NAME", "P", "NOWHERE"] 0
    (by decide) (by decide)

/-- C7: the token stream is read-only to the extractors.  The C-prefix strip
of format A happens on a copy and changes no position other than the code
index, and the officer scan inside parse_corp_line runs on the original
token stream produced by the tokenizer, not on the modified copy. -/
theorem token_stream_read_only :
    (∀ (tokens : List String) (c k : Nat), k ≠ c →
       (ra_tokens_of tokens c).getD k "" = tokens.getD k "") ∧
    (∀ doc line,
       (parse_corp_line doc line).officers =
         officersFrom (tokens_of doc line) (tokens_of doc line).length
           (ra_pair_of doc line).2) :=
  ⟨fun tokens c k hk => getD_set_ne tokens c k _ "" hk,
   fun _ _ => rfl⟩

/-- C7 witness. -/
theorem token_stream_read_only_witness :
    (ra_tokens_of ["JOHN", "C123"] 1).getD 0 "" =
      (["JOHN", "C123"] : List String).getD 0 "" ∧
    (parse_corp_line "D1" "").officers =
      officersFrom (tokens_of "D1" "") (tokens_of "D1" "").length
        (ra_pair_of "D1" "").2 :=
  ⟨token_stream_read_only.1 ["JOHN", "C123"] 1 0 (by decide),
   token_stream_read_only.2 "D1" ""⟩

/-- C8: the officer loop terminates within a number of iterations bounded by
the token count: any fuel of at least the remaining token count, in
particular the full token count used by parse_corp_line, computes the same
officer list as the exact remaining count, because every iteration advances
the cursor by at least one. -/
theorem officer_loop_bounded :
    ∀ (tokens : List String) (fuel i : Nat),
      tokens.length - i ≤ fuel →
      officersFrom tokens fuel i =
        officersFrom tokens (tokens.length - i) i :=
  fun tokens fuel i h =>
    officersFrom_congr tokens fuel (tokens.length - i) i h (Nat.le_refl _)

/-- C8 witness: a stream of role-code tokens only. -/
theorem officer_loop_bounded_witness :
    officersFrom ["MGR", "MGR", "MGR"] 5 0 =
      officersFrom ["MGR", "MGR", "MGR"]
        ((["MGR", "MGR", "MGR"] : List String).length - 0) 0 :=
  officer_loop_bounded ["MGR", "MGR", "MGR"] 5 0 (by decide)

/-- C9: search_entities sorts the parsed candidate summaries ascending by the
rank triple and truncates to the clamped limit; on the two-candidate example
of the spec, the exact document-number match L200 is ranked first. -/
theorem search_ranking_sorted :
    (∀ (cands : List (String × String)) (q : String) (limit : Nat),
       List.Pairwise
         (fun a b => rank_le (upperStr (clean_str q)) a b = true)
         (search_entities cands q limit) ∧
       (search_entities cands q limit).length =
         min (clampLimit limit) cands.length) ∧
    (search_entities [("L100", "L100 Acme Corp"), ("L200", "L200 Zenith LLC")]
        "L200" 10).map (fun it => it.document_number) = ["L200", "L100"] := by
  constructor
  · intro cands q limit
    have htot : IsTotal Summary
        (fun x y => rank_le (upperStr (clean_str q)) x y = true) := by
      constructor
      intro a b
      rcases Bool.or_eq_true _ _ |>.mp (rank_le_total (upperStr (clean_str q)) a b)
        with h | h
      · exact Or.inl h
      · exact Or.inr h
    have htrans : IsTrans Summary
        (fun x y => rank_le (upperStr (clean_str q)) x y = true) := by
      constructor
      intro a b c hab hbc
      exact rank_le_trans _ a b c hab hbc
    constructor
    · have hs := @List.sorted_insertionSort Summary
        (fun x y => rank_le (upperStr (clean_str q)) x y = true) _ htot htrans
        (cands.map (fun dl => summarize dl.1 dl.2))
      show List.Pairwise _
        (((cands.map (fun dl => summarize dl.1 dl.2)).insertionSort
            (fun x y => rank_le (upperStr (clean_str q)) x y = true)).take
          (clampLimit limit))
      exact List.Pairwise.sublist (List.take_sublist _ _) hs
    · show (((cands.map (fun dl => summarize dl.1 dl.2)).insertionSort
          (fun x y => rank_le (upperStr (clean_str q)) x y = true)).take
          (clampLimit limit)).length = _
      rw [List.length_take, (List.perm_insertionSort _ _).length_eq,
        List.length_map]
  · decide

/-- C10: when the stream after the two address passes holds no 8-digit date
token, the filing-facts scan runs to the end of the stream, so the record has
no registered agent and no officers even if compact codes or role tokens
remain. -/
theorem no_date_empties_tail :
    ∀ doc line,
      (∀ k, k < (tokens_of doc line).length →
        idx_after_addresses doc line ≤ k →
        looks_like_date ((tokens_of doc line).getD k "") = false) →
      (facts_of doc line).next = (tokens_of doc line).length ∧
      (parse_corp_line doc line).registered_agent = none ∧
      (parse_corp_line doc line).officers = [] := by
  intro doc line h
  have hidx := idx_after_addresses_le doc line
  have hff : facts_of doc line =
      { formation_date := none, fei_ein := none, annual_report_year := none,
        report_dates := [], next := (tokens_of doc line).length } := by
    unfold facts_of
    exact filing_facts_no_date _ _ hidx h
  have hnext : (facts_of doc line).next = (tokens_of doc line).length := by
    rw [hff]
  have hra : ra_pair_of doc line = (none, (tokens_of doc line).length) := by
    unfold ra_pair_of
    rw [hnext]
    exact ra_step_at_end _ _ (Nat.le_refl _)
  refine ⟨hnext, ?_, ?_⟩
  · show (ra_pair_of doc line).1 = none
    rw [hra]
  · show officers_of doc line = []
    unfold officers_of
    rw [hra]
    exact officersFrom_at_end _ _ _ (Nat.le_refl _)

/-- C10 witness: the remainder of no_date_line holds a compact agent code and
role tokens but no date token. -/
theorem no_date_empties_tail_witness :
    (facts_of "L1" no_date_line).next = (tokens_of "L1" no_date_line).length ∧
    (parse_corp_line "L1" no_date_line).registered_agent = none ∧
    (parse_corp_line "L1" no_date_line).officers = [] :=
  no_date_empties_tail "L1" no_date_line (by decide)
